import Mathlib

/-!
Verification of the tunisia-price-tracker specification against a shallow
embedding of the repository's code.

The repository ships the admin frontend (`admin/src`), deployment scripts and
documentation; the FastAPI backend described by the spec is not present in the
source tree, only its REST callers (`admin/src/api/client.ts`) and the README.
Definitions below therefore come in two groups:
* translations of the TypeScript admin code (auth context, search page,
  scraper-config page) — faithful to the source files;
* models of the missing backend core (orchestrator, ingestion and diff engine,
  price-drop query, search engine), each marked `Modelled from the spec:` in
  its doc comment.
-/

namespace PriceTracker

/-! ## Admin authentication (`admin/src/contexts/AuthContext.tsx`) -/

/-- The hard-coded credential pair from `AuthContext.tsx` lines 3–6. -/
structure AuthCreds where
  username : String
  password : String
deriving DecidableEq, Repr

/-- `CREDENTIALS` constant compiled into the frontend. -/
def CREDENTIALS : AuthCreds :=
  { username := "amir", password := "Xk9#mP2$vL" }

/--
`login` from `AuthContext.tsx` lines 25–31, with the React state threaded
explicitly: given the submitted pair and the current `isAuthenticated` state,
it returns the boolean result and the new state.  On a match it sets the state
to `true` and returns `true`; otherwise it returns `false` and leaves the
state untouched.
-/
def login (username password : String) (isAuthenticated : Bool) : Bool × Bool :=
  if username = CREDENTIALS.username ∧ password = CREDENTIALS.password then
    (true, true)
  else
    (false, isAuthenticated)

/-! ## Search page (`src/unnamed/part_002`, the `Search` component) -/

/--
The `enabled` predicate of the search query
(`enabled: searchQuery.length >= 2`): a request is issued only when the
submitted query has at least two characters.
-/
def searchQueryEnabled (searchQuery : String) : Bool :=
  decide (2 ≤ searchQuery.length)

/--
The submit button's `disabled` prop
(`disabled={query.length < 2 || isFetching}`).
-/
def searchButtonDisabled (query : String) (isFetching : Bool) : Bool :=
  decide (query.length < 2) || isFetching

/-! ## Scraper configuration page (`admin/src/pages/ScraperConfig.tsx`) -/

/-- `type ConfigType = "product_list" | "sitemap"` (line 37). -/
inductive ConfigType where
  | product_list
  | sitemap
deriving DecidableEq, Repr

/-- The wire encoding of a `ConfigType` value, exactly the string literals of
the TypeScript union type. -/
def ConfigType.encode : ConfigType → String
  | .product_list => "product_list"
  | .sitemap => "sitemap"

/-- Selector maps are string-keyed string maps (`Record<string, string>`),
embedded as association lists. -/
abbrev SelectorMap := List (String × String)

/-- Lookup in a selector map, mirroring JavaScript property access:
`some v` when the key is present, `none` (i.e. `undefined`) otherwise. -/
def selLookup (m : SelectorMap) (key : String) : Option String :=
  (m.find? (fun kv => kv.1 = key)).map (fun kv => kv.2)

/-- `DEFAULT_SELECTORS` (lines 45–55): every listing-strategy selector name
mapped to the empty string. -/
def DEFAULT_SELECTORS : SelectorMap :=
  [("container", ""), ("item", ""), ("name", ""), ("price", ""),
   ("original_price", ""), ("image", ""), ("url", ""), ("in_stock", ""),
   ("wait_for_selector", "")]

/-- `DEFAULT_SITEMAP_SELECTORS` (lines 57–65). -/
def DEFAULT_SITEMAP_SELECTORS : SelectorMap :=
  [("price", ""), ("original_price", ""), ("name", ""), ("description", ""),
   ("brand", ""), ("in_stock", ""), ("wait_for_selector", "")]

/-- The stored scraper-config record as the page consumes it
(`ScraperConfig` interface in `api/client.ts`, fields the page reads). -/
structure SConfig where
  config_type : ConfigType
  selectors : SelectorMap
  version : Nat
  is_active : Bool

/-- The form state of the page (`FormState`, lines 39–43): its `config_type`
field is typed by the closed union `ConfigType`. -/
structure FormState where
  config_type : ConfigType
  selectors : SelectorMap

/-- The `config_type` value sent by `handleCreate`/`handleSave`
(lines 186–207): the form state's own `config_type`, encoded. -/
def submittedConfigType (fs : FormState) : String :=
  fs.config_type.encode

/-- `const activeConfig = configs?.find((c) => c.is_active)` (line 106). -/
def activeConfig (configs : List SConfig) : Option SConfig :=
  configs.find? (fun c => c.is_active)

/-- The default selector set chosen for a config
(lines 241–244): sitemap configs use `DEFAULT_SITEMAP_SELECTORS`, listing
configs use `DEFAULT_SELECTORS`. -/
def defaultSelectorsFor (c : SConfig) : SelectorMap :=
  match c.config_type with
  | .sitemap => DEFAULT_SITEMAP_SELECTORS
  | .product_list => DEFAULT_SELECTORS

/--
The JavaScript object spread `{ ...defaults, ...stored }`, read through a key:
a key present in `stored` takes its stored value, a key present only in
`defaults` takes the default value, any other key is `undefined`.
This is the `displaySelectors` merge of lines 245–247.
-/
def mergedLookup (defaults stored : SelectorMap) (key : String) : Option String :=
  match selLookup stored key with
  | some v => some v
  | none => selLookup defaults key

/-- The resolved (normalized) selector value the page displays for a config
and a selector name. -/
def resolvedSelector (c : SConfig) (key : String) : Option String :=
  mergedLookup (defaultSelectorsFor c) c.selectors key

/-- The selector names of a config's default set. -/
def defaultKeys (c : SConfig) : List String :=
  (defaultSelectorsFor c).map (fun kv => kv.1)

/-! ## Config versioning (backend, modelled from the spec) -/

/-- The largest version number among a website's stored configs. -/
def maxVersion (configs : List SConfig) : Nat :=
  (configs.map (fun c => c.version)).foldr max 0

/-- Clearing the active flag on every stored config. -/
def deactivateAll (configs : List SConfig) : List SConfig :=
  configs.map (fun c => { c with is_active := false })

/--
Modelled from the spec: the backend save operation is not under `src/`.
§4.1: "Saving a new config value creates a new version; the previous active
version is deactivated atomically in the same operation", with a
monotonically increasing version counter (§3).  The new record is appended
with version `maxVersion + 1` and the active flag set; all previous records
are deactivated.
-/
def saveConfig (configs : List SConfig) (ct : ConfigType) (sel : SelectorMap) :
    List SConfig :=
  deactivateAll configs ++
    [{ config_type := ct, selectors := sel,
       version := maxVersion configs + 1, is_active := true }]

/-! ## Ingestion & Diff Engine (backend, modelled from the spec) -/

/-- Immutable, append-only price history entry (§3 PricePoint): price and
original price as fixed-point currency values (millimes), a currency tag and
the recording timestamp. -/
structure PricePoint where
  price : Int
  original_price : Int
  currency : String
  recorded_at : Nat
deriving DecidableEq, Repr

/-- The RawItem shape produced by both extraction strategies (§4.2). -/
structure RawItem where
  external_id : String
  name : String
  brand : String
  price : Int
  original_price : Int
  image_url : String
  product_url : String
  in_stock : Bool
  currency : String
deriving DecidableEq, Repr

/-- Catalog product (§3): identified by external_id within one website, with
its price history kept most-recent-first. -/
structure Product where
  external_id : String
  name : String
  brand : String
  image_url : String
  product_url : String
  currency : String
  in_stock : Bool
  history : List PricePoint
deriving DecidableEq, Repr

/-- The status component of `ingest`'s result (§4.4). -/
inductive IngestStatus where
  | created
  | updated
  | unchanged
deriving DecidableEq, Repr

/-- `ingest(websiteId, RawItem) -> {created|updated|unchanged, priceRecorded}`. -/
structure IngestResult where
  status : IngestStatus
  priceRecorded : Bool
deriving DecidableEq, Repr

/-- Whether the item's price or original price differs from the most recent
PricePoint of the product (bit-exact comparison, §4.4); an empty history
counts as differing so that an initial point is recorded. -/
def priceDiffers (p : Product) (item : RawItem) : Bool :=
  match p.history with
  | [] => true
  | pt :: _ =>
    decide (¬(pt.price = item.price ∧ pt.original_price = item.original_price))

/-- Whether any non-price field of the item differs from the product (§4.4:
"compare all non-price fields; update them if changed"). -/
def fieldsDiffer (p : Product) (item : RawItem) : Bool :=
  decide (¬(p.name = item.name ∧ p.brand = item.brand ∧
            p.image_url = item.image_url ∧ p.product_url = item.product_url ∧
            p.in_stock = item.in_stock ∧ p.currency = item.currency))

/-- The PricePoint recorded for an item at the current timestamp. -/
def newPoint (item : RawItem) (now : Nat) : PricePoint :=
  { price := item.price, original_price := item.original_price,
    currency := item.currency, recorded_at := now }

/-- Re-sighting of an existing product: update non-price fields, append a
PricePoint only when price or original price differs from the most recent
point; status is `updated` when anything changed, `unchanged` otherwise. -/
def applyItem (p : Product) (item : RawItem) (now : Nat) :
    IngestResult × Product :=
  let pd := priceDiffers p item
  let fd := fieldsDiffer p item
  ({ status := if pd || fd then .updated else .unchanged, priceRecorded := pd },
   { p with name := item.name, brand := item.brand,
            image_url := item.image_url, product_url := item.product_url,
            in_stock := item.in_stock, currency := item.currency,
            history := if pd then newPoint item now :: p.history else p.history })

/-- First sighting: create the Product together with its initial PricePoint. -/
def createProduct (item : RawItem) (now : Nat) : Product :=
  { external_id := item.external_id, name := item.name, brand := item.brand,
    image_url := item.image_url, product_url := item.product_url,
    currency := item.currency, in_stock := item.in_stock,
    history := [newPoint item now] }

/--
Modelled from the spec: the backend ingestion engine is not under `src/`.
§4.4: lookup by external_id within the website's catalog; if absent, create a
Product and one initial PricePoint (status `created`, price recorded); if
present, update changed non-price fields and append a new PricePoint only
when price or original price differs from the most recent one.
-/
def ingest (catalog : List Product) (item : RawItem) (now : Nat) :
    IngestResult × List Product :=
  match catalog with
  | [] => ({ status := .created, priceRecorded := true }, [createProduct item now])
  | p :: rest =>
    if p.external_id = item.external_id then
      let r := applyItem p item now
      (r.1, r.2 :: rest)
    else
      let r := ingest rest item now
      (r.1, p :: r.2)

/-- Adjacency relation of a well-formed price history (most-recent-first):
strictly decreasing timestamps and no two adjacent points with identical
(price, original_price). -/
def ppStep (a b : PricePoint) : Prop :=
  b.recorded_at < a.recorded_at ∧
  ¬(a.price = b.price ∧ a.original_price = b.original_price)

instance (a b : PricePoint) : Decidable (ppStep a b) :=
  inferInstanceAs (Decidable (b.recorded_at < a.recorded_at ∧
    ¬(a.price = b.price ∧ a.original_price = b.original_price)))

/-- Executable check that every adjacent pair of a history satisfies
`ppStep`. -/
def historyOKb : List PricePoint → Bool
  | [] => true
  | [_] => true
  | a :: b :: rest => decide (ppStep a b) && historyOKb (b :: rest)

/-- A product's PricePoint sequence is well formed when every adjacent pair
satisfies `ppStep`. -/
def historyOK (l : List PricePoint) : Prop :=
  historyOKb l = true

/-- Every point of the history was recorded strictly before `now`. -/
def historyBefore (l : List PricePoint) (now : Nat) : Prop :=
  ∀ pt ∈ l, pt.recorded_at < now

instance (l : List PricePoint) : Decidable (historyOK l) :=
  inferInstanceAs (Decidable (historyOKb l = true))

instance (l : List PricePoint) (now : Nat) : Decidable (historyBefore l now) :=
  inferInstanceAs (Decidable (∀ pt ∈ l, pt.recorded_at < now))

/-- Lookup of a product by external id, as ingestion performs it. -/
def findProduct (catalog : List Product) (eid : String) : Option Product :=
  catalog.find? (fun p => p.external_id = eid)

/-- Concrete catalog product for evaluating ingestion on an input whose
prices equal the most recent PricePoint but whose name differs. -/
def cexProduct : Product :=
  { external_id := "sku-1", name := "Serum A", brand := "ANUA",
    image_url := "", product_url := "https://freya.tn/p/sku-1",
    currency := "TND", in_stock := true,
    history := [{ price := 45900, original_price := 52000,
                  currency := "TND", recorded_at := 0 }] }

/-- Concrete raw item matching `cexProduct`'s most recent prices while
renaming the product. -/
def cexItem : RawItem :=
  { external_id := "sku-1", name := "Serum B", brand := "ANUA",
    price := 45900, original_price := 52000,
    image_url := "", product_url := "https://freya.tn/p/sku-1",
    in_stock := true, currency := "TND" }

/-- Concrete raw item identical to `cexProduct` in every field, including the
most recent prices. -/
def cexUnchangedItem : RawItem :=
  { external_id := "sku-1", name := "Serum A", brand := "ANUA",
    price := 45900, original_price := 52000,
    image_url := "", product_url := "https://freya.tn/p/sku-1",
    in_stock := true, currency := "TND" }

/-! ## Price-drop query (backend, modelled from the spec) -/

/-- A recorded price, viewed by the drop query as a rational for the
percentage computation. -/
structure PriceRecord where
  recorded_at : Nat
  price : ℚ
deriving DecidableEq, Repr

/-- One row of the price-drop response (§6). -/
structure DropEntry where
  product_id : Nat
  current_price : ℚ
  previous_price : ℚ
  drop_amount : ℚ
  drop_percentage : ℚ
  recorded_at : Nat
deriving DecidableEq, Repr

/-- The drop percentage as the spec fixes it:
(previous − current) / previous × 100. -/
def dropPercentage (previous current : ℚ) : ℚ :=
  (previous - current) / previous * 100

/--
Modelled from the spec: the backend price-drop query is not under `src/`.
§4.4: per-product step — restrict the product's history (most-recent-first)
to the window, take its two most recent points, and emit a row when the
decrease exceeds the minimum threshold.
-/
def productDrop (pid : Nat) (points : List PriceRecord) (windowStart : Nat)
    (minDrop : ℚ) : Option DropEntry :=
  match points.filter (fun pt => decide (windowStart ≤ pt.recorded_at)) with
  | cur :: prev :: _ =>
    if minDrop < prev.price - cur.price then
      some { product_id := pid, current_price := cur.price,
             previous_price := prev.price,
             drop_amount := prev.price - cur.price,
             drop_percentage := dropPercentage prev.price cur.price,
             recorded_at := cur.recorded_at }
    else none
  | _ => none

/-- Comparator of the drop report: descending drop percentage. -/
def dropGE (a b : DropEntry) : Bool :=
  decide (b.drop_percentage ≤ a.drop_percentage)

/--
Modelled from the spec: the full price-drop query (§4.4) — one optional row
per product, sorted by drop percentage descending.
-/
def priceDrops (rows : List (Nat × List PriceRecord)) (windowStart : Nat)
    (minDrop : ℚ) : List DropEntry :=
  (rows.filterMap (fun r => productDrop r.1 r.2 windowStart minDrop)).mergeSort dropGE

/-- Concrete input of the drop query: one product whose price fell from 2 to
1 between timestamps 1 and 2. -/
def dropRows : List (Nat × List PriceRecord) :=
  [(1, [{ recorded_at := 2, price := 1 }, { recorded_at := 1, price := 2 }])]

/-! ## Crawl Orchestrator (backend, modelled from the spec) -/

/-- CrawlRun lifecycle states (§4.3):
`queued → running → {success, failed, stopped}`. -/
inductive RunStatus where
  | queued
  | running
  | success
  | failed
  | stopped
deriving DecidableEq, Repr

/-- `queued` and `running` are the only non-terminal states (§4.3). -/
def RunStatus.nonTerminal : RunStatus → Bool
  | .queued => true
  | .running => true
  | _ => false

/-- Counters of one crawl run (§3 CrawlRun). -/
structure RunCounters where
  products_found : Nat
  products_created : Nat
  products_updated : Nat
  prices_recorded : Nat
  pages_scraped : Nat
deriving DecidableEq, Repr

/-- All counters at zero, the state of a freshly queued run. -/
def RunCounters.zero : RunCounters :=
  { products_found := 0, products_created := 0, products_updated := 0,
    prices_recorded := 0, pages_scraped := 0 }

/-- One crawl run of the orchestrator's log (§3 CrawlRun). -/
structure CrawlRun where
  website_id : Nat
  status : RunStatus
  counters : RunCounters
deriving DecidableEq, Repr

/-- Orchestrator state: the log of crawl runs across all websites. -/
structure OrchState where
  runs : List CrawlRun
deriving DecidableEq, Repr

/-- Whether a run belongs to website `w` and is still non-terminal. -/
def runNonTerminalFor (w : Nat) (r : CrawlRun) : Bool :=
  (r.website_id == w) && r.status.nonTerminal

/-- Whether website `w` currently has a non-terminal run. -/
def hasNonTerminal (st : OrchState) (w : Nat) : Bool :=
  st.runs.any (runNonTerminalFor w)

/-- Number of non-terminal runs of website `w`. -/
def nonTerminalCount (st : OrchState) (w : Nat) : Nat :=
  st.runs.countP (runNonTerminalFor w)

/-- Result of a trigger request (§4.3). -/
inductive TriggerResult where
  | conflict
  | queuedRun
deriving DecidableEq, Repr

/--
Modelled from the spec: the orchestrator is not under `src/`.
§4.3: `trigger(websiteId, options) -> CrawlRun(queued) | Conflict` — rejected
with Conflict when the website already has a non-terminal run, otherwise a
fresh queued run is appended to the log.
-/
def trigger (st : OrchState) (w : Nat) : TriggerResult × OrchState :=
  if hasNonTerminal st w then (.conflict, st)
  else (.queuedRun,
    { runs := st.runs ++
        [{ website_id := w, status := .queued, counters := RunCounters.zero }] })

/-- In-place update of the i-th run of the log. -/
def modifyRun : List CrawlRun → Nat → (CrawlRun → CrawlRun) → List CrawlRun
  | [], _, _ => []
  | r :: rs, 0, f => f r :: rs
  | r :: rs, i + 1, f => r :: modifyRun rs i f

/-- Modelled from the spec: the orchestrator picks up a queued run
(`queued → running`, §4.3); any other run is left untouched. -/
def startRun (st : OrchState) (i : Nat) : OrchState :=
  { runs := modifyRun st.runs i
      (fun r => if r.status = .queued then { r with status := .running } else r) }

/-- Modelled from the spec: a running run ends in a terminal state
(`running → {success, failed, stopped}`, §4.3); other transitions are
refused. -/
def finishRun (st : OrchState) (i : Nat) (s : RunStatus) : OrchState :=
  { runs := modifyRun st.runs i
      (fun r => if r.status = .running ∧ s.nonTerminal = false
                then { r with status := s } else r) }

/-- The orchestrator invariant (§4.3): at most one non-terminal run per
website, at any time. -/
def OrchInv (st : OrchState) : Prop :=
  ∀ w, nonTerminalCount st w ≤ 1

/-- A concrete orchestrator state: website 0 has one running run. -/
def stOneRunning : OrchState :=
  { runs := [{ website_id := 0, status := .running,
               counters := RunCounters.zero }] }

/-! ## Run execution and cooperative stop (backend, modelled from the spec) -/

/-- The executing job of one crawl run: its status, counters, the items
already handed to ingestion (persisted), and the items still to be fetched. -/
structure RunJob where
  status : RunStatus
  counters : RunCounters
  ingested : List RawItem
  pending : List RawItem
deriving DecidableEq, Repr

/--
Modelled from the spec: the job runner is not under `src/`.
§4.3: each item pulled from the extraction sequence is handed to ingestion
synchronously; cancellation is checked between fetches.  One step of a
running job ingests the next pending item (persisting it and updating the
counters); a running job with nothing pending ends as `success`; a job in
any other state does nothing.
-/
def jobStep (j : RunJob) : RunJob :=
  if j.status = RunStatus.running then
    match j.pending with
    | item :: rest =>
      { j with ingested := j.ingested ++ [item], pending := rest,
               counters := { j.counters with
                 products_found := j.counters.products_found + 1 } }
    | [] => { j with status := .success }
  else j

/-- Iterated job execution. -/
def jobSteps : Nat → RunJob → RunJob
  | 0, j => j
  | n + 1, j => jobSteps n (jobStep j)

/-- Result of a stop request (§4.3). -/
inductive StopResult where
  | ok
  | notFound
deriving DecidableEq, Repr

/--
Modelled from the spec: `stop(websiteId) -> ok | NotFound` (§4.3) — requests
cooperative cancellation of the website's running job; when one exists the
run transitions to `stopped` with its ingested items and counters left
intact, otherwise NotFound.
-/
def stopJob (maybeJob : Option RunJob) : StopResult × Option RunJob :=
  match maybeJob with
  | some j =>
    if j.status = RunStatus.running then
      (.ok, some { j with status := .stopped })
    else (.notFound, some j)
  | none => (.notFound, none)

/-- A concrete running job with one ingested and one pending item. -/
def jobRunning : RunJob :=
  { status := .running, counters := RunCounters.zero,
    ingested := [cexUnchangedItem], pending := [cexItem] }

/-! ## Search & Matching Engine (backend, modelled from the spec) -/

/-- Query/entry normalization (§4.5): case folding. -/
def normalizeText (s : String) : String :=
  s.toLower

/-- The token set of a normalized text: whitespace-split with empty tokens
dropped. -/
def tokenSet (s : String) : Finset String :=
  (((normalizeText s).splitOn " ").filter (fun t => t ≠ "")).toFinset

/--
Modelled from the spec: the scoring function is not under `src/`.
§4.5 and the glossary: a deterministic lexical similarity value in [0,1]
between the normalized query and a catalog entry, computed as token-set
overlap (Jaccard): |q ∩ t| / |q ∪ t|, and 0 when both token sets are empty.
-/
def matchScore (query entry : String) : ℚ :=
  if (tokenSet query ∪ tokenSet entry).card = 0 then 0
  else ((tokenSet query ∩ tokenSet entry).card : ℚ) /
       ((tokenSet query ∪ tokenSet entry).card : ℚ)

/-- A catalog entry as the search engine sees it: the (product, website)
pair with its text fields and current price. -/
structure Candidate where
  product_id : Nat
  website_id : Nat
  name : String
  brand : String
  current_price : ℚ
deriving DecidableEq, Repr

/-- One result row: the candidate with its match score. -/
structure ScoredResult where
  candidate : Candidate
  score : ℚ
deriving DecidableEq, Repr

/-- Scoring of one catalog entry: name and brand form the entry text
(§4.5: "For each candidate Product (name and brand) compute a lexical
similarity score"). -/
def scoreCandidate (query : String) (c : Candidate) : ScoredResult :=
  { candidate := c, score := matchScore query (c.name ++ " " ++ c.brand) }

/-- Result comparator (§4.5): descending score, ties broken by ascending
current price. -/
def resultLE (a b : ScoredResult) : Bool :=
  if a.score = b.score then
    decide (a.candidate.current_price ≤ b.candidate.current_price)
  else decide (b.score < a.score)

/-- The survivors of a search: every candidate scored, those below the
minimum score discarded (§4.5). -/
def searchSurvivors (query : String) (catalog : List Candidate)
    (minScore : ℚ) : List ScoredResult :=
  (catalog.map (scoreCandidate query)).filter
    (fun r => decide (minScore ≤ r.score))

/-- The search response: ranked rows and the distinct-website count. -/
structure SearchOut where
  results : List ScoredResult
  websites_searched : Nat
deriving DecidableEq, Repr

/--
Modelled from the spec: the search engine is not under `src/`.
§4.5: sort the survivors by descending score with ascending-price
tie-break, truncate to the requested page size, and report the distinct
website count among the surviving results.
-/
def search (query : String) (catalog : List Candidate) (minScore : ℚ)
    (pageSize : Nat) : SearchOut :=
  { results := ((searchSurvivors query catalog minScore).mergeSort
      resultLE).take pageSize,
    websites_searched := ((searchSurvivors query catalog minScore).map
      (fun r => r.candidate.website_id)).dedup.length }

/-- A concrete two-candidate catalog for evaluating the search pipeline. -/
def searchCatalog : List Candidate :=
  [{ product_id := 1, website_id := 10,
     name := "ANUA Peach 70 Niacinamide Serum 30ml", brand := "ANUA",
     current_price := 459/10 },
   { product_id := 2, website_id := 11, name := "Garden hose", brand := "",
     current_price := 99/10 }]

end PriceTracker

namespace PriceTracker

/-! ## Helper lemmas -/

theorem selLookup_all_empty (m : SelectorMap) (k : String)
    (hall : ∀ kv ∈ m, kv.2 = "") (hk : k ∈ m.map Prod.fst) :
    selLookup m k = some "" := by
  induction m with
  | nil => simp at hk
  | cons kv rest ih =>
    by_cases h : kv.1 = k
    · have h2 : kv.2 = "" := hall kv (by simp)
      simp [selLookup, List.find?_cons_of_pos, h, h2]
    · have hk' : k ∈ rest.map Prod.fst := by
        rcases List.mem_cons.mp hk with h1 | h1
        · exact absurd h1.symm h
        · exact h1
      have hall' : ∀ kv' ∈ rest, kv'.2 = "" := fun kv' hm => hall kv' (by simp [hm])
      have : selLookup rest k = some "" := ih hall' hk'
      simpa [selLookup, List.find?_cons_of_neg, h] using this

theorem version_le_maxVersion (configs : List SConfig) (c : SConfig)
    (h : c ∈ configs) : c.version ≤ maxVersion configs := by
  induction configs with
  | nil => simp at h
  | cons a rest ih =>
    rcases List.mem_cons.mp h with rfl | h1
    · exact le_max_left _ _
    · exact le_trans (ih h1) (le_max_right _ _)

theorem activeConfig_append_of_inactive (l1 l2 : List SConfig)
    (h : ∀ c ∈ l1, c.is_active = false) :
    activeConfig (l1 ++ l2) = activeConfig l2 := by
  induction l1 with
  | nil => simp
  | cons a rest ih =>
    have ha : a.is_active = false := h a (by simp)
    have h' : ∀ c ∈ rest, c.is_active = false := fun c hm => h c (by simp [hm])
    simpa [activeConfig, List.find?_cons_of_neg, ha] using ih h'

theorem defaults_all_empty (c : SConfig) :
    ∀ kv ∈ defaultSelectorsFor c, kv.2 = "" := by
  cases h : c.config_type <;>
    simp [defaultSelectorsFor, h, DEFAULT_SELECTORS, DEFAULT_SITEMAP_SELECTORS]

theorem applyItem_unchanged (p : Product) (item : RawItem) (now : Nat)
    (hf : fieldsDiffer p item = false) (hp : priceDiffers p item = false) :
    applyItem p item now =
      ({ status := IngestStatus.unchanged, priceRecorded := false }, p) := by
  have hfields : p.name = item.name ∧ p.brand = item.brand ∧
      p.image_url = item.image_url ∧ p.product_url = item.product_url ∧
      p.in_stock = item.in_stock ∧ p.currency = item.currency := by
    simpa [fieldsDiffer] using hf
  obtain ⟨h1, h2, h3, h4, h5, h6⟩ := hfields
  unfold applyItem
  rw [hf, hp]
  simp only [Bool.or_self, Bool.false_eq_true, if_false]
  rw [← h1, ← h2, ← h3, ← h4, ← h5, ← h6]

theorem historyOK_chain (l : List PricePoint) (h : historyOK l) :
    l.Chain' ppStep := by
  induction l with
  | nil => simp
  | cons a t ih =>
    cases t with
    | nil => simp
    | cons b r =>
      rw [historyOK, historyOKb, Bool.and_eq_true] at h
      exact List.chain'_cons.mpr ⟨of_decide_eq_true h.1, ih h.2⟩

theorem historyOK_pairwise (l : List PricePoint) (h : historyOK l) :
    l.Pairwise (fun a b => b.recorded_at < a.recorded_at) := by
  have hc : l.Chain' (fun a b : PricePoint => b.recorded_at < a.recorded_at) :=
    (historyOK_chain l h).imp (fun _ _ hab => hab.1)
  haveI : IsTrans PricePoint (fun a b : PricePoint => b.recorded_at < a.recorded_at) :=
    ⟨fun _ _ _ h1 h2 => lt_trans h2 h1⟩
  exact List.chain'_iff_pairwise.mp hc

theorem applyItem_historyOK (p : Product) (item : RawItem) (now : Nat)
    (hok : historyOK p.history) (hb : historyBefore p.history now) :
    historyOK (applyItem p item now).2.history := by
  unfold applyItem
  dsimp only
  by_cases hpd : priceDiffers p item = true
  · rw [hpd]
    simp only [if_true]
    cases hh : p.history with
    | nil => rfl
    | cons pt t =>
      have hstep : ppStep (newPoint item now) pt := by
        constructor
        · exact hb pt (by simp [hh])
        · have hne : ¬(pt.price = item.price ∧ pt.original_price = item.original_price) := by
            have hx := hpd
            rw [priceDiffers, hh] at hx
            exact of_decide_eq_true hx
          intro hc
          exact hne ⟨hc.1.symm, hc.2.symm⟩
      rw [historyOK, hh] at hok
      rw [historyOK, historyOKb, decide_eq_true hstep, Bool.true_and]
      exact hok
  · rw [Bool.not_eq_true] at hpd
    rw [hpd]
    simpa using hok

/-! ## Theorems: admin authentication, search page, config type -/

/--
C10: `login` returns `true` and sets the authenticated state exactly when the
supplied username and password both equal the hard-coded credential pair
(`"amir"`, `"Xk9#mP2$vL"`); for every other input pair it returns `false` and
leaves the authenticated state unchanged.
-/
theorem login_correct (u p : String) (st : Bool) :
    (u = "amir" ∧ p = "Xk9#mP2$vL" → login u p st = (true, true)) ∧
    (¬(u = "amir" ∧ p = "Xk9#mP2$vL") → login u p st = (false, st)) := by
  constructor
  · intro h
    simp [login, CREDENTIALS, h.1, h.2]
  · intro h
    simp only [login, CREDENTIALS]
    rw [if_neg]
    exact h

/-- Witness for `login_correct`: the credential pair logs in and sets the
state, a wrong password is rejected and leaves the state `false`. -/
theorem login_correct_witness :
    login "amir" "Xk9#mP2$vL" false = (true, true) ∧
    login "amir" "wrong" false = (false, false) := by
  refine ⟨(login_correct "amir" "Xk9#mP2$vL" false).1 ⟨rfl, rfl⟩, ?_⟩
  exact (login_correct "amir" "wrong" false).2 (by decide)

/--
C9: the search page issues a request exactly when the submitted query has at
least 2 characters (`searchQueryEnabled`), and the submit button is disabled
whenever the typed query is shorter than 2 characters, whatever the fetching
flag.
-/
theorem search_min_query_length (sq q : String) (fetching : Bool) :
    (searchQueryEnabled sq = true ↔ 2 ≤ sq.length) ∧
    (q.length < 2 → searchButtonDisabled q fetching = true) := by
  constructor
  · simp [searchQueryEnabled]
  · intro h
    simp [searchButtonDisabled, h]

/-- Witness for `search_min_query_length` at concrete inputs: a 2-character
query is searched, a 1-character query keeps the button disabled. -/
theorem search_min_query_length_witness :
    searchQueryEnabled "ab" = true ∧ searchButtonDisabled "a" false = true := by
  constructor
  · exact (search_min_query_length "ab" "a" false).1.mpr (by decide)
  · exact (search_min_query_length "ab" "a" false).2 (by decide)

/--
C4 counterexample: the claim says every config type is `"listing"` or
`"sitemap"`, but the config interface's default form state carries
`ConfigType.product_list`, which encodes to `"product_list"` — neither of the
two claimed strings.
-/
theorem configType_not_listing :
    submittedConfigType { config_type := .product_list, selectors := DEFAULT_SELECTORS } ≠ "listing" ∧
    submittedConfigType { config_type := .product_list, selectors := DEFAULT_SELECTORS } ≠ "sitemap" := by
  constructor <;> decide

/--
C4 (amended): every config type value the config interface can hold or submit
is exactly one of the two strings `"product_list"` and `"sitemap"`.
-/
theorem configType_closed (fs : FormState) :
    submittedConfigType fs = "product_list" ∨ submittedConfigType fs = "sitemap" := by
  cases h : fs.config_type
  · left
    simp [submittedConfigType, h, ConfigType.encode]
  · right
    simp [submittedConfigType, h, ConfigType.encode]

theorem ingest_keeps_historyOK (catalog : List Product) (item : RawItem)
    (now : Nat)
    (hok : ∀ q ∈ catalog, historyOK q.history ∧ historyBefore q.history now) :
    (∀ q ∈ (ingest catalog item now).2, historyOK q.history) ∧
    (∀ p, findProduct catalog item.external_id = some p →
      fieldsDiffer p item = false → priceDiffers p item = false →
      ingest catalog item now =
        ({ status := IngestStatus.unchanged, priceRecorded := false }, catalog)) := by
  induction catalog with
  | nil =>
    constructor
    · intro q hq
      simp only [ingest, List.mem_singleton] at hq
      subst hq
      rfl
    · intro p hp
      simp [findProduct] at hp
  | cons hd rest ih =>
    have hokrest : ∀ q ∈ rest, historyOK q.history ∧ historyBefore q.history now :=
      fun q hq => hok q (by simp [hq])
    obtain ⟨ihinv, ihunch⟩ := ih hokrest
    constructor
    · intro q hq
      by_cases he : hd.external_id = item.external_id
      · simp only [ingest, if_pos he] at hq
        rcases List.mem_cons.mp hq with rfl | hq'
        · exact applyItem_historyOK hd item now (hok hd (by simp)).1 (hok hd (by simp)).2
        · exact (hokrest q hq').1
      · simp only [ingest, if_neg he] at hq
        rcases List.mem_cons.mp hq with rfl | hq'
        · exact (hok q (by simp)).1
        · exact ihinv q hq'
    · intro p hp hf hpr
      by_cases he : hd.external_id = item.external_id
      · have hpd : p = hd := by
          rw [findProduct, List.find?_cons_of_pos _ (by simpa using he)] at hp
          exact (Option.some_injective _ hp).symm
        subst hpd
        simp only [ingest, if_pos he, applyItem_unchanged p item now hf hpr]
      · have hp' : findProduct rest item.external_id = some p := by
          rw [findProduct, List.find?_cons_of_neg _ (by simpa using he)] at hp
          exact hp
        have hrec := ihunch p hp' hf hpr
        simp only [ingest, if_neg he, hrec]

/--
C2 (amended): ingestion preserves the PricePoint invariant — for every
product in the resulting catalog the history is strictly ordered by
recorded_at (pairwise strictly decreasing, most-recent-first) with no two
adjacent points carrying identical (price, original_price) — and
re-ingesting a RawItem all of whose fields (prices and non-price fields
alike) equal the matched product's current state returns status `unchanged`
with no price recorded and leaves the catalog unchanged.
-/
theorem ingest_history_invariant (catalog : List Product) (item : RawItem)
    (now : Nat)
    (hok : ∀ q ∈ catalog, historyOK q.history ∧ historyBefore q.history now) :
    (∀ q ∈ (ingest catalog item now).2, historyOK q.history ∧
      q.history.Pairwise (fun a b => b.recorded_at < a.recorded_at)) ∧
    (∀ p, findProduct catalog item.external_id = some p →
      fieldsDiffer p item = false → priceDiffers p item = false →
      ingest catalog item now =
        ({ status := IngestStatus.unchanged, priceRecorded := false }, catalog)) := by
  obtain ⟨h1, h2⟩ := ingest_keeps_historyOK catalog item now hok
  exact ⟨fun q hq => ⟨h1 q hq, historyOK_pairwise _ (h1 q hq)⟩, h2⟩

/-- Witness for `ingest_history_invariant`: a one-product catalog with a
well-formed history and an identical re-ingested item. -/
theorem ingest_history_invariant_witness :
    (∀ q ∈ (ingest [cexProduct] cexUnchangedItem 1).2, historyOK q.history ∧
      q.history.Pairwise (fun a b => b.recorded_at < a.recorded_at)) ∧
    (∀ p, findProduct [cexProduct] cexUnchangedItem.external_id = some p →
      fieldsDiffer p cexUnchangedItem = false →
      priceDiffers p cexUnchangedItem = false →
      ingest [cexProduct] cexUnchangedItem 1 =
        ({ status := IngestStatus.unchanged, priceRecorded := false },
         [cexProduct])) :=
  ingest_history_invariant [cexProduct] cexUnchangedItem 1 (by decide)

/--
C2 counterexample: a RawItem whose price and original price equal the
product's most recent PricePoint but whose name differs is ingested with
status `updated`, not `unchanged` (though no PricePoint is appended), so the
claim's status clause fails as stated.
-/
theorem ingest_price_equal_status_not_unchanged :
    priceDiffers cexProduct cexItem = false ∧
    (ingest [cexProduct] cexItem 1).1 =
      { status := IngestStatus.updated, priceRecorded := false } ∧
    IngestStatus.updated ≠ IngestStatus.unchanged := by
  refine ⟨by decide, by decide, by decide⟩

theorem dropPercentage_pos_iff (previous current : ℚ) (hp : 0 < previous) :
    0 < dropPercentage previous current ↔ current < previous := by
  unfold dropPercentage
  constructor
  · intro h
    by_contra hc
    push_neg at hc
    have hd : previous - current ≤ 0 := by linarith
    have h1 : (previous - current) / previous ≤ 0 :=
      div_nonpos_iff.mpr (Or.inr ⟨hd, hp.le⟩)
    nlinarith
  · intro h
    have hd : 0 < previous - current := by linarith
    have h1 : 0 < (previous - current) / previous := div_pos hd hp
    nlinarith

theorem productDrop_spec (pid : Nat) (points : List PriceRecord)
    (windowStart : Nat) (minDrop : ℚ) (e : DropEntry)
    (hpos : ∀ pt ∈ points, 0 < pt.price)
    (h : productDrop pid points windowStart minDrop = some e) :
    e.drop_percentage =
      (e.previous_price - e.current_price) / e.previous_price * 100 ∧
    0 < e.previous_price := by
  unfold productDrop at h
  split at h
  next cur prev tail hfilter =>
    split at h
    next hcond =>
      rw [Option.some_inj] at h
      have hprev_mem : prev ∈ points := by
        have hmem : prev ∈ points.filter
            (fun pt => decide (windowStart ≤ pt.recorded_at)) := by
          rw [hfilter]
          simp
        exact (List.mem_filter.mp hmem).1
      subst h
      exact ⟨rfl, hpos prev hprev_mem⟩
    next => simp at h
  next => simp at h

/--
C3: every row of the price-drop report carries
drop_percentage = (previous − current) / previous × 100, that percentage is
positive exactly when the current price is below the previous one, and the
report is sorted by drop percentage descending.
-/
theorem priceDrops_correct (rows : List (Nat × List PriceRecord))
    (windowStart : Nat) (minDrop : ℚ)
    (hpos : ∀ r ∈ rows, ∀ pt ∈ r.2, 0 < pt.price) :
    (∀ e ∈ priceDrops rows windowStart minDrop,
      e.drop_percentage =
        (e.previous_price - e.current_price) / e.previous_price * 100 ∧
      (0 < e.drop_percentage ↔ e.current_price < e.previous_price)) ∧
    (priceDrops rows windowStart minDrop).Pairwise
      (fun a b => b.drop_percentage ≤ a.drop_percentage) := by
  constructor
  · intro e he
    rw [priceDrops, List.mem_mergeSort] at he
    rcases List.mem_filterMap.mp he with ⟨r, hr, hprod⟩
    obtain ⟨h1, h2⟩ :=
      productDrop_spec r.1 r.2 windowStart minDrop e (hpos r hr) hprod
    refine ⟨h1, ?_⟩
    have hiff := dropPercentage_pos_iff e.previous_price e.current_price h2
    rw [dropPercentage] at hiff
    rw [h1]
    exact hiff
  · have htrans : ∀ a b c : DropEntry, dropGE a b → dropGE b c → dropGE a c := by
      intro a b c h1 h2
      exact decide_eq_true (le_trans (of_decide_eq_true h2) (of_decide_eq_true h1))
    have htotal : ∀ a b : DropEntry, dropGE a b || dropGE b a := by
      intro a b
      rcases le_total b.drop_percentage a.drop_percentage with h | h <;>
        simp [dropGE, h]
    have hs := List.sorted_mergeSort htrans htotal
      (rows.filterMap (fun r => productDrop r.1 r.2 windowStart minDrop))
    exact hs.imp (fun h => of_decide_eq_true h)

/-- Witness for `priceDrops_correct` on the concrete one-product input. -/
theorem priceDrops_correct_witness :
    (∀ e ∈ priceDrops dropRows 0 0,
      e.drop_percentage =
        (e.previous_price - e.current_price) / e.previous_price * 100 ∧
      (0 < e.drop_percentage ↔ e.current_price < e.previous_price)) ∧
    (priceDrops dropRows 0 0).Pairwise
      (fun a b => b.drop_percentage ≤ a.drop_percentage) :=
  priceDrops_correct dropRows 0 0 (by decide)

theorem countP_modifyRun_le (l : List CrawlRun) (i : Nat)
    (f : CrawlRun → CrawlRun) (p : CrawlRun → Bool)
    (hf : ∀ r, p (f r) = true → p r = true) :
    (modifyRun l i f).countP p ≤ l.countP p := by
  induction l generalizing i with
  | nil => simp [modifyRun]
  | cons r rs ih =>
    cases i with
    | zero =>
      simp only [modifyRun, List.countP_cons]
      have hle : (if p (f r) then 1 else 0) ≤ (if p r then 1 else 0) := by
        by_cases h : p (f r) = true
        · rw [if_pos h, if_pos (hf r h)]
        · rw [if_neg h]
          exact Nat.zero_le _
      exact Nat.add_le_add_left hle _
    | succ n =>
      simp only [modifyRun, List.countP_cons]
      exact Nat.add_le_add_right (ih n) _

theorem nonTerminalCount_eq_zero_of_not_has (st : OrchState) (w : Nat)
    (h : hasNonTerminal st w = false) : nonTerminalCount st w = 0 := by
  rw [nonTerminalCount, List.countP_eq_zero]
  intro r hr
  rw [hasNonTerminal] at h
  intro hp
  have : st.runs.any (runNonTerminalFor w) = true :=
    List.any_eq_true.mpr ⟨r, hr, hp⟩
  rw [h] at this
  exact Bool.false_ne_true this

/--
C1: at most one crawl run per website is in a non-terminal state (queued or
running) at any time — the invariant holds of the empty log and is preserved
by trigger, by the queued→running transition and by the running→terminal
transition — and triggering a run for a website that already has a
non-terminal run returns Conflict and leaves the log unchanged (no second
run is created).
-/
theorem trigger_conflict_and_invariant (st : OrchState) (w i : Nat)
    (s : RunStatus) (hinv : OrchInv st) :
    (hasNonTerminal st w = true → trigger st w = (TriggerResult.conflict, st)) ∧
    OrchInv { runs := ([] : List CrawlRun) } ∧
    OrchInv (trigger st w).2 ∧
    OrchInv (startRun st i) ∧
    OrchInv (finishRun st i s) := by
  refine ⟨?_, ?_, ?_, ?_, ?_⟩
  · intro h
    rw [trigger, if_pos h]
  · intro w'
    simp [nonTerminalCount]
  · by_cases h : hasNonTerminal st w = true
    · rw [trigger, if_pos h]
      exact hinv
    · rw [trigger, if_neg h]
      intro w'
      rw [Bool.not_eq_true] at h
      by_cases hw : w' = w
      · subst hw
        have h0 : nonTerminalCount st w' = 0 :=
          nonTerminalCount_eq_zero_of_not_has st w' h
        rw [nonTerminalCount] at h0 ⊢
        simp only [List.countP_append, h0, List.countP_cons, List.countP_nil,
          runNonTerminalFor, RunStatus.nonTerminal]
        simp
      · rw [nonTerminalCount]
        simp only [List.countP_append, List.countP_cons, List.countP_nil]
        have hnew : runNonTerminalFor w'
            { website_id := w, status := .queued,
              counters := RunCounters.zero } = false := by
          simp [runNonTerminalFor]
          intro hc
          exact absurd hc.symm hw
        rw [hnew]
        simpa [nonTerminalCount] using hinv w'
  · intro w'
    have hf : ∀ r, runNonTerminalFor w'
        (if r.status = .queued then { r with status := .running } else r) = true →
        runNonTerminalFor w' r = true := by
      intro r
      by_cases hq : r.status = .queued
      · rw [if_pos hq]
        intro hp
        rw [runNonTerminalFor] at hp ⊢
        rw [hq]
        simpa [RunStatus.nonTerminal] using hp
      · rw [if_neg hq]
        exact id
    exact le_trans (countP_modifyRun_le st.runs i _ _ hf) (hinv w')
  · intro w'
    have hf : ∀ r, runNonTerminalFor w'
        (if r.status = .running ∧ s.nonTerminal = false
         then { r with status := s } else r) = true →
        runNonTerminalFor w' r = true := by
      intro r
      by_cases hq : r.status = .running ∧ s.nonTerminal = false
      · rw [if_pos hq]
        intro hp
        rw [runNonTerminalFor] at hp
        simp only [Bool.and_eq_true] at hp
        rw [hq.2] at hp
        exact absurd hp.2 Bool.false_ne_true
      · rw [if_neg hq]
        exact id
    exact le_trans (countP_modifyRun_le st.runs i _ _ hf) (hinv w')

/-- Witness for `trigger_conflict_and_invariant`: a log with one running run
for website 0 rejects a new trigger for website 0 with Conflict. -/
theorem trigger_conflict_and_invariant_witness :
    hasNonTerminal stOneRunning 0 = true ∧
    trigger stOneRunning 0 = (TriggerResult.conflict, stOneRunning) := by
  have hinv : OrchInv stOneRunning := by
    intro w
    exact le_trans (List.countP_le_length _) (by simp [stOneRunning])
  exact ⟨by decide,
    (trigger_conflict_and_invariant stOneRunning 0 0 RunStatus.success hinv).1
      (by decide)⟩

theorem jobStep_of_stopped (j : RunJob) (h : j.status = RunStatus.stopped) :
    jobStep j = j := by
  rw [jobStep, if_neg]
  rw [h]
  intro hc
  exact RunStatus.noConfusion hc

theorem jobSteps_of_stopped (n : Nat) (j : RunJob)
    (h : j.status = RunStatus.stopped) : jobSteps n j = j := by
  induction n with
  | zero => rfl
  | succ m ih =>
    rw [jobSteps, jobStep_of_stopped j h]
    exact ih

/--
C6: the stop request returns ok exactly when a running job exists (NotFound
otherwise, leaving the state untouched); on success the job transitions to
`stopped`, the items ingested before the stop stay persisted, the counters
are unchanged, and no number of further execution steps ingests anything
more for that run.
-/
theorem stop_behavior (maybeJob : Option RunJob) :
    ((stopJob maybeJob).1 = StopResult.ok ↔
      ∃ j, maybeJob = some j ∧ j.status = RunStatus.running) ∧
    (∀ j, maybeJob = some j → j.status ≠ RunStatus.running →
      stopJob maybeJob = (StopResult.notFound, some j)) ∧
    stopJob none = (StopResult.notFound, none) ∧
    (∀ j, maybeJob = some j → j.status = RunStatus.running →
      ∃ js, (stopJob maybeJob).2 = some js ∧
        js.status = RunStatus.stopped ∧
        js.ingested = j.ingested ∧
        js.counters = j.counters ∧
        ∀ n, jobSteps n js = js) := by
  refine ⟨?_, ?_, rfl, ?_⟩
  · constructor
    · intro h
      match maybeJob with
      | none => simp [stopJob] at h
      | some j =>
        by_cases hr : j.status = RunStatus.running
        · exact ⟨j, rfl, hr⟩
        · rw [stopJob, if_neg hr] at h
          exact absurd h (by intro hc; exact StopResult.noConfusion hc)
    · rintro ⟨j, rfl, hr⟩
      rw [stopJob, if_pos hr]
  · intro j hm hr
    subst hm
    rw [stopJob, if_neg hr]
  · intro j hm hr
    subst hm
    rw [stopJob, if_pos hr]
    exact ⟨{ j with status := .stopped }, rfl, rfl, rfl, rfl,
      fun n => jobSteps_of_stopped n _ rfl⟩

/-- Witness for `stop_behavior` at the concrete running job: stop succeeds,
the job is stopped, its payload is frozen under further steps. -/
theorem stop_behavior_witness :
    ((stopJob (some jobRunning)).1 = StopResult.ok ↔
      ∃ j, some jobRunning = some j ∧ j.status = RunStatus.running) ∧
    (∀ j, some jobRunning = some j → j.status ≠ RunStatus.running →
      stopJob (some jobRunning) = (StopResult.notFound, some j)) ∧
    stopJob none = (StopResult.notFound, none) ∧
    (∀ j, some jobRunning = some j → j.status = RunStatus.running →
      ∃ js, (stopJob (some jobRunning)).2 = some js ∧
        js.status = RunStatus.stopped ∧
        js.ingested = j.ingested ∧
        js.counters = j.counters ∧
        ∀ n, jobSteps n js = js) :=
  stop_behavior (some jobRunning)

theorem resultLE_trans (a b c : ScoredResult) (h1 : resultLE a b = true)
    (h2 : resultLE b c = true) : resultLE a c = true := by
  unfold resultLE at h1 h2 ⊢
  by_cases hab : a.score = b.score <;> by_cases hbc : b.score = c.score
  · rw [if_pos hab] at h1
    rw [if_pos hbc] at h2
    rw [if_pos (hab.trans hbc)]
    exact decide_eq_true (le_trans (of_decide_eq_true h1) (of_decide_eq_true h2))
  · rw [if_neg hbc] at h2
    have hcb : c.score < b.score := of_decide_eq_true h2
    have hca : c.score < a.score := by rw [hab]; exact hcb
    have hac : ¬(a.score = c.score) := fun h => hbc (hab.symm.trans h)
    rw [if_neg hac]
    exact decide_eq_true hca
  · rw [if_neg hab] at h1
    have hba : b.score < a.score := of_decide_eq_true h1
    have hca : c.score < a.score := by rw [← hbc]; exact hba
    have hac : ¬(a.score = c.score) := fun h => hab (h.trans hbc.symm)
    rw [if_neg hac]
    exact decide_eq_true hca
  · rw [if_neg hab] at h1
    rw [if_neg hbc] at h2
    have hba : b.score < a.score := of_decide_eq_true h1
    have hcb : c.score < b.score := of_decide_eq_true h2
    have hca : c.score < a.score := lt_trans hcb hba
    have hac : ¬(a.score = c.score) := by
      intro h
      rw [h] at hca
      exact lt_irrefl _ hca
    rw [if_neg hac]
    exact decide_eq_true hca

theorem resultLE_total (a b : ScoredResult) :
    resultLE a b || resultLE b a := by
  unfold resultLE
  by_cases hab : a.score = b.score
  · rw [if_pos hab, if_pos hab.symm]
    rcases le_total a.candidate.current_price b.candidate.current_price with h | h
    · rw [decide_eq_true h]
      exact Bool.true_or _
    · rw [decide_eq_true h]
      exact Bool.or_true _
  · rw [if_neg hab, if_neg (fun h => hab h.symm)]
    rcases lt_or_gt_of_ne hab with h | h
    · rw [decide_eq_true h]
      exact Bool.or_true _
    · rw [decide_eq_true h]
      exact Bool.true_or _

theorem resultLE_to_rank (a b : ScoredResult) (h : resultLE a b = true) :
    b.score < a.score ∨
    (a.score = b.score ∧
      a.candidate.current_price ≤ b.candidate.current_price) := by
  unfold resultLE at h
  by_cases hab : a.score = b.score
  · rw [if_pos hab] at h
    exact Or.inr ⟨hab, of_decide_eq_true h⟩
  · rw [if_neg hab] at h
    exact Or.inl (of_decide_eq_true h)

/--
C7: every returned row of a search is a surviving result (score at or above
the minimum), the rows are sorted by descending score with ties broken by
ascending current price, the row list is the survivor list truncated to the
requested page size (a permutation of all survivors when they fit), and
websites_searched equals the number of distinct websites among the
surviving results.
-/
theorem search_correct (query : String) (catalog : List Candidate)
    (minScore : ℚ) (pageSize : Nat) :
    (∀ r ∈ (search query catalog minScore pageSize).results,
      minScore ≤ r.score ∧ r ∈ searchSurvivors query catalog minScore) ∧
    (search query catalog minScore pageSize).results.length =
      min pageSize (searchSurvivors query catalog minScore).length ∧
    (search query catalog minScore pageSize).results.Pairwise
      (fun a b => b.score < a.score ∨
        (a.score = b.score ∧
          a.candidate.current_price ≤ b.candidate.current_price)) ∧
    ((searchSurvivors query catalog minScore).length ≤ pageSize →
      (search query catalog minScore pageSize).results.Perm
        (searchSurvivors query catalog minScore)) ∧
    (search query catalog minScore pageSize).websites_searched =
      ((searchSurvivors query catalog minScore).map
        (fun r => r.candidate.website_id)).toFinset.card := by
  refine ⟨?_, ?_, ?_, ?_, ?_⟩
  · intro r hr
    have hmem : r ∈ (searchSurvivors query catalog minScore).mergeSort resultLE :=
      List.mem_of_mem_take hr
    rw [List.mem_mergeSort] at hmem
    refine ⟨?_, hmem⟩
    rw [searchSurvivors] at hmem
    exact of_decide_eq_true (List.mem_filter.mp hmem).2
  · rw [search]
    rw [List.length_take, List.length_mergeSort]
  · have hs := List.sorted_mergeSort resultLE_trans resultLE_total
      (searchSurvivors query catalog minScore)
    have hsub := List.take_sublist pageSize
      ((searchSurvivors query catalog minScore).mergeSort resultLE)
    exact (hs.sublist hsub).imp (fun h => resultLE_to_rank _ _ h)
  · intro hle
    rw [search]
    have hlen : ((searchSurvivors query catalog minScore).mergeSort
        resultLE).length ≤ pageSize := by
      rw [List.length_mergeSort]
      exact hle
    rw [List.take_of_length_le hlen]
    exact List.mergeSort_perm _ _
  · exact (List.card_toFinset _).symm

/-- Witness for `search_correct` on the concrete two-candidate catalog. -/
theorem search_correct_witness :
    (∀ r ∈ (search "anua peach serum" searchCatalog (1/2) 10).results,
      (1/2 : ℚ) ≤ r.score ∧
      r ∈ searchSurvivors "anua peach serum" searchCatalog (1/2)) ∧
    (search "anua peach serum" searchCatalog (1/2) 10).results.length =
      min 10 (searchSurvivors "anua peach serum" searchCatalog (1/2)).length ∧
    (search "anua peach serum" searchCatalog (1/2) 10).results.Pairwise
      (fun a b => b.score < a.score ∨
        (a.score = b.score ∧
          a.candidate.current_price ≤ b.candidate.current_price)) ∧
    ((searchSurvivors "anua peach serum" searchCatalog (1/2)).length ≤ 10 →
      (search "anua peach serum" searchCatalog (1/2) 10).results.Perm
        (searchSurvivors "anua peach serum" searchCatalog (1/2))) ∧
    (search "anua peach serum" searchCatalog (1/2) 10).websites_searched =
      ((searchSurvivors "anua peach serum" searchCatalog (1/2)).map
        (fun r => r.candidate.website_id)).toFinset.card :=
  search_correct "anua peach serum" searchCatalog (1/2) 10

/--
C8: the match score is a deterministic function of the query and the catalog
entry — two invocations on equal inputs return the same score — and the
score always lies in [0, 1].
-/
theorem matchScore_deterministic (q1 q2 : String) (c1 c2 : Candidate)
    (hq : q1 = q2) (hc : c1 = c2) :
    (scoreCandidate q1 c1).score = (scoreCandidate q2 c2).score ∧
    0 ≤ (scoreCandidate q1 c1).score ∧ (scoreCandidate q1 c1).score ≤ 1 := by
  subst hq
  subst hc
  refine ⟨rfl, ?_, ?_⟩
  · rw [scoreCandidate]
    dsimp only
    rw [matchScore]
    by_cases h : (tokenSet q1 ∪ tokenSet (c1.name ++ " " ++ c1.brand)).card = 0
    · rw [if_pos h]
    · rw [if_neg h]
      exact div_nonneg (Nat.cast_nonneg _) (Nat.cast_nonneg _)
  · rw [scoreCandidate]
    dsimp only
    rw [matchScore]
    by_cases h : (tokenSet q1 ∪ tokenSet (c1.name ++ " " ++ c1.brand)).card = 0
    · rw [if_pos h]
      exact zero_le_one
    · rw [if_neg h]
      have hpos : (0 : ℚ) <
          ((tokenSet q1 ∪ tokenSet (c1.name ++ " " ++ c1.brand)).card : ℚ) := by
        exact_mod_cast Nat.pos_of_ne_zero h
      rw [div_le_one hpos]
      exact_mod_cast Finset.card_le_card Finset.inter_subset_union

/-- Witness for `matchScore_deterministic` at a concrete query and catalog
entry. -/
theorem matchScore_deterministic_witness :
    (scoreCandidate "anua peach serum"
      { product_id := 1, website_id := 10,
        name := "ANUA Peach 70 Niacinamide Serum 30ml", brand := "ANUA",
        current_price := 459/10 }).score =
    (scoreCandidate "anua peach serum"
      { product_id := 1, website_id := 10,
        name := "ANUA Peach 70 Niacinamide Serum 30ml", brand := "ANUA",
        current_price := 459/10 }).score ∧
    0 ≤ (scoreCandidate "anua peach serum"
      { product_id := 1, website_id := 10,
        name := "ANUA Peach 70 Niacinamide Serum 30ml", brand := "ANUA",
        current_price := 459/10 }).score ∧
    (scoreCandidate "anua peach serum"
      { product_id := 1, website_id := 10,
        name := "ANUA Peach 70 Niacinamide Serum 30ml", brand := "ANUA",
        current_price := 459/10 }).score ≤ 1 :=
  matchScore_deterministic _ _ _ _ rfl rfl

/--
C5: after any save, resolving the active configuration yields exactly one
config — the active one, whose version is at least every stored version — and
in the resolved config every selector name of the strategy's selector set
that is absent from the stored selector map resolves to the empty string and
never to `undefined`; resolving over an empty config list yields `none`
(NotFound).
-/
theorem resolveActiveConfig_correct (configs : List SConfig) (ct : ConfigType)
    (sel : SelectorMap) :
    ∃ c, activeConfig (saveConfig configs ct sel) = some c ∧
      c.is_active = true ∧
      (∀ c' ∈ saveConfig configs ct sel, c'.is_active = true → c' = c) ∧
      (∀ c' ∈ saveConfig configs ct sel, c'.version ≤ c.version) ∧
      (∀ k ∈ defaultKeys c,
        resolvedSelector c k ≠ none ∧
        (selLookup c.selectors k = none → resolvedSelector c k = some "")) ∧
      activeConfig ([] : List SConfig) = none := by
  refine ⟨{ config_type := ct, selectors := sel,
            version := maxVersion configs + 1, is_active := true }, ?_, rfl, ?_, ?_, ?_, rfl⟩
  · have hin : ∀ c ∈ deactivateAll configs, c.is_active = false := by
      intro c hc
      rcases List.mem_map.mp hc with ⟨c0, _, rfl⟩
      rfl
    rw [saveConfig, activeConfig_append_of_inactive _ _ hin]
    simp [activeConfig, List.find?_cons_of_pos]
  · intro c' hc' hact
    rcases List.mem_append.mp hc' with h1 | h1
    · rcases List.mem_map.mp h1 with ⟨c0, _, rfl⟩
      simp at hact
    · simpa using h1
  · intro c' hc'
    rcases List.mem_append.mp hc' with h1 | h1
    · rcases List.mem_map.mp h1 with ⟨c0, hc0, rfl⟩
      have : c0.version ≤ maxVersion configs := version_le_maxVersion configs c0 hc0
      simpa using Nat.le_succ_of_le this
    · simp at h1
      simp [h1]
  · intro k hk
    unfold resolvedSelector mergedLookup
    dsimp only
    cases hs : selLookup sel k with
    | some v => simp [hs]
    | none =>
      have hempty := defaults_all_empty
        { config_type := ct, selectors := sel,
          version := maxVersion configs + 1, is_active := true }
      have hres := selLookup_all_empty _ k hempty (by simpa [defaultKeys] using hk)
      simp [hs, hres]

/-- Witness for `resolveActiveConfig_correct` at a concrete save over an
empty config list. -/
theorem resolveActiveConfig_correct_witness :
    ∃ c, activeConfig (saveConfig [] ConfigType.product_list []) = some c ∧
      c.is_active = true ∧
      (∀ c' ∈ saveConfig [] ConfigType.product_list [], c'.is_active = true → c' = c) ∧
      (∀ c' ∈ saveConfig [] ConfigType.product_list [], c'.version ≤ c.version) ∧
      (∀ k ∈ defaultKeys c,
        resolvedSelector c k ≠ none ∧
        (selLookup c.selectors k = none → resolvedSelector c k = some "")) ∧
      activeConfig ([] : List SConfig) = none :=
  resolveActiveConfig_correct [] ConfigType.product_list []

end PriceTracker
